import Mathlib

/-!
Shallow embedding of the Conversation Memory & Usage-Accounting Engine of the
multi-ai-providers-chatbot repository.

Embedded modules:
* `src/core/counters.py` — class `TokenCounter`: token counting, the pricing
  table, cost estimation, and `get_token_info`.
* `src/core/memory.py` — class `MemoryManager`: the record store operations and
  `summarize_and_prune`.

External collaborators (the `tiktoken` tokenizer, the LLM completion call and
the Supabase persistence backend) are modelled as explicit parameters: the
tokenizer as a function returning `Option Nat` (`none` models a raised
exception, caught by the source's `try`/`except`), the completion call as an
`Option String`, the store as an explicit `Store` value, and the success of the
summary insert as a `Bool` (matching `bool(result.data)` in the source).
-/

/-- Boolean substring test, modelling Python's `needle in haystack` on strings. -/
def containsSub (hay needle : String) : Bool :=
  decide (needle.toList <:+: hay.toList)

/-- Python's `str.lower()`, character by character (the model names involved
are ASCII, where this agrees with Unicode lowercasing). -/
def pyLower (s : String) : String :=
  String.mk (s.data.map Char.toLower)

/-- Helper for `pySplit`: scan the characters, `cur` holding the current word
reversed; whitespace closes the word, empty pieces are dropped. -/
def wordsAux : List Char → List Char → List String
  | [], cur => if cur = [] then [] else [String.mk cur.reverse]
  | c :: cs, cur =>
    if c.isWhitespace then
      if cur = [] then wordsAux cs []
      else String.mk cur.reverse :: wordsAux cs []
    else wordsAux cs (c :: cur)

/-- Python's `str.split()` with no argument: split on whitespace runs,
dropping empty pieces. -/
def pySplit (s : String) : List String :=
  wordsAux s.toList []

/-- Fallback estimation in `_count_openai_tokens`:
`int(len(text.split()) * 1.3)`, i.e. 1.3 tokens per word truncated to an
integer (exact rational arithmetic stands in for the float product). -/
def wordFallback (text : String) : Nat :=
  13 * (pySplit text).length / 10

/-- Encoding selection of `TokenCounter._count_openai_tokens`: which tiktoken
encoding the model family maps to (`cl100k_base` for unknown models). -/
def openaiEncodingName (model : String) : String :=
  let ml := pyLower model
  if containsSub ml "gpt-4.1" || containsSub ml "o3" ||
     containsSub ml "gpt-4o" || containsSub ml "o4-mini" then "gpt-4"
  else if containsSub ml "gpt-4" then "gpt-4"
  else if containsSub ml "gpt-3.5-turbo" then "gpt-3.5-turbo"
  else "cl100k_base"

/-- Embedding of `TokenCounter._count_openai_tokens`. The `tik` parameter
models the external `tiktoken` library: given the selected encoding name and
the text it returns `some count`, or `none` when the tokenizer raises, in
which case the source's `except` branch falls back to `wordFallback`. -/
def _count_openai_tokens (tik : String → String → Option Nat)
    (model text : String) : Nat :=
  match tik (openaiEncodingName model) text with
  | some n => n
  | none => wordFallback text

/-- Embedding of `TokenCounter._count_anthropic_tokens`:
`max(1, int(len(text) / 3.8))`; `len/3.8 = 5*len/19` in exact arithmetic. -/
def _count_anthropic_tokens (text : String) : Nat :=
  max 1 (5 * text.length / 19)

/-- Embedding of `TokenCounter._count_gemini_tokens`:
`max(1, int(len(text) / 3.7))`; `len/3.7 = 10*len/37` in exact arithmetic. -/
def _count_gemini_tokens (text : String) : Nat :=
  max 1 (10 * text.length / 37)

/-- Embedding of `TokenCounter.count_tokens`: dispatch on the provider, with
whitespace word count as the unknown-provider fallback. -/
def count_tokens (tik : String → String → Option Nat)
    (provider model text : String) : Nat :=
  if provider = "OpenAI" then _count_openai_tokens tik model text
  else if provider = "Anthropic" then _count_anthropic_tokens text
  else if provider = "Gemini" then _count_gemini_tokens text
  else (pySplit text).length

/-- One message dict as used by `count_messages_tokens` (the source reads the
`content` and `role` keys with default `""`). -/
structure Message where
  role : String
  content : String
deriving Repr, DecidableEq

/-- Embedding of `TokenCounter.count_messages_tokens`: fold over the messages
adding each content's token count plus 4 per message, plus 3 at the end. -/
def count_messages_tokens (tik : String → String → Option Nat)
    (provider model : String) (messages : List Message) : Nat :=
  (messages.foldl
    (fun acc msg => acc + count_tokens tik provider model msg.content + 4) 0) + 3

/-- The `"OpenAI"` block of `TokenCounter.__init__`'s pricing table:
model name to (input rate, output rate) per 1K tokens, as exact decimals. -/
def openaiPricing : List (String × ℚ × ℚ) :=
  [("gpt-4.1", (0.002, 0.008)),
   ("o3", (0.002, 0.008)),
   ("gpt-4o", (0.005, 0.015)),
   ("o4-mini-deep-research", (0.0011, 0.0044)),
   ("gpt-4.1-mini", (0.0004, 0.0016)),
   ("gpt-4.1-nano", (0.0001, 0.0004)),
   ("o3-pro", (0.02, 0.08)),
   ("gpt-4", (0.03, 0.06)),
   ("gpt-4-turbo", (0.01, 0.03)),
   ("gpt-3.5-turbo", (0.001, 0.002))]

/-- The `"Anthropic"` block of the pricing table. -/
def anthropicPricing : List (String × ℚ × ℚ) :=
  [("claude-sonnet-4-20250514", (0.003, 0.015)),
   ("claude-opus-4-20250514", (0.015, 0.075)),
   ("claude-3-opus-20240229", (0.015, 0.075)),
   ("claude-3-sonnet-20240229", (0.003, 0.015)),
   ("claude-3-haiku-20240307", (0.00025, 0.00125)),
   ("claude-3-7-sonnet-20250219", (0.003, 0.015)),
   ("claude-3-5-sonnet-20241022", (0.003, 0.015)),
   ("claude-3-5-haiku-20241022", (0.001, 0.005))]

/-- The `"Gemini"` block of the pricing table. -/
def geminiPricing : List (String × ℚ × ℚ) :=
  [("gemini-2.5-pro", (0.00125, 0.005)),
   ("gemini-2.5-flash", (0.0003, 0.0025)),
   ("gemini-2.5-flash-lite", (0.0001, 0.0004)),
   ("gemini-2.0-flash", (0.0000375, 0.00015)),
   ("gemini-2.0-flash-lite", (0.00001875, 0.000075)),
   ("gemini-pro", (0.0005, 0.0015)),
   ("gemini-pro-vision", (0.0005, 0.0015))]

/-- The full `self.pricing` dict of `TokenCounter.__init__`. -/
def pricing : List (String × List (String × ℚ × ℚ)) :=
  [("OpenAI", openaiPricing),
   ("Anthropic", anthropicPricing),
   ("Gemini", geminiPricing)]

/-- Python `dict.get(k)` on an association list (`none` plays `{}`). -/
def dictGet {α : Type} (d : List (String × α)) (k : String) : Option α :=
  (d.find? (fun kv => kv.1 == k)).map (fun kv => kv.2)

/-- Embedding of `TokenCounter.is_model_supported`: exact-match lookup only. -/
def is_model_supported (provider model : String) : Bool :=
  match dictGet pricing provider with
  | some providerModels => (dictGet providerModels model).isSome
  | none => false

/-- The fuzzy-matching block of `TokenCounter.estimate_cost`, reached when the
exact lookup found nothing; `ml` is `model.lower()` and `pp` the provider's
pricing block. Branches whose source leaves `model_pricing = {}` return
`none`. -/
def fuzzyPricing (provider ml : String) (pp : List (String × ℚ × ℚ)) :
    Option (ℚ × ℚ) :=
  if provider = "OpenAI" then
    if containsSub ml "gpt-4.1" then
      if containsSub ml "mini" then dictGet pp "gpt-4.1-mini"
      else if containsSub ml "nano" then dictGet pp "gpt-4.1-nano"
      else dictGet pp "gpt-4.1"
    else if containsSub ml "o3" then
      if containsSub ml "pro" then dictGet pp "o3-pro"
      else dictGet pp "o3"
    else if containsSub ml "gpt-4o" then dictGet pp "gpt-4o"
    else if containsSub ml "o4-mini" then dictGet pp "o4-mini-deep-research"
    else if containsSub ml "gpt-4" then dictGet pp "gpt-4"
    else none
  else if provider = "Anthropic" then
    if containsSub ml "claude-4" || containsSub ml "sonnet-4" then
      dictGet pp "claude-sonnet-4-20250514"
    else if containsSub ml "opus-4" then dictGet pp "claude-opus-4-20250514"
    else if containsSub ml "claude-3" then
      if containsSub ml "opus" then dictGet pp "claude-3-opus-20240229"
      else if containsSub ml "sonnet" then dictGet pp "claude-3-sonnet-20240229"
      else if containsSub ml "haiku" then dictGet pp "claude-3-haiku-20240307"
      else none
    else none
  else if provider = "Gemini" then
    if containsSub ml "2.5" then
      if containsSub ml "pro" then dictGet pp "gemini-2.5-pro"
      else if containsSub ml "flash-lite" || containsSub ml "lite" then
        dictGet pp "gemini-2.5-flash-lite"
      else if containsSub ml "flash" then dictGet pp "gemini-2.5-flash"
      else none
    else if containsSub ml "2.0" then
      if containsSub ml "lite" then dictGet pp "gemini-2.0-flash-lite"
      else dictGet pp "gemini-2.0-flash"
    else if containsSub ml "gemini-pro" then dictGet pp "gemini-pro"
    else none
  else none

/-- Pricing resolution of `estimate_cost`: exact `(provider, model)` lookup
first, then the fuzzy fallback; `none` is the `if not model_pricing` case. -/
def resolvePricing (provider model : String) : Option (ℚ × ℚ) :=
  let pp := (dictGet pricing provider).getD []
  match dictGet pp model with
  | some p => some p
  | none => fuzzyPricing provider (pyLower model) pp

/-- Embedding of `TokenCounter.estimate_cost`:
`(input_tokens/1000)*input_rate + (output_tokens/1000)*output_rate`, or `0.0`
when no pricing entry resolves. -/
def estimate_cost (provider model : String)
    (input_tokens output_tokens : Nat) : ℚ :=
  match resolvePricing provider model with
  | none => 0
  | some pr =>
    ((input_tokens : ℚ) / 1000) * pr.1 + ((output_tokens : ℚ) / 1000) * pr.2

/-- Result record of `TokenCounter.get_token_info`. -/
structure TokenInfo where
  input_tokens : Nat
  output_tokens : Nat
  total_tokens : Nat
  estimated_cost : ℚ
  provider : String
  model : String
  model_supported : Bool
  cost_accuracy : String
deriving Repr

/-- Embedding of `TokenCounter.get_token_info`. -/
def get_token_info (tik : String → String → Option Nat)
    (provider model : String) (messages : List Message)
    (response_text : String) : TokenInfo :=
  let input_tokens := count_messages_tokens tik provider model messages
  let output_tokens :=
    if response_text ≠ "" then count_tokens tik provider model response_text
    else 0
  let estimated_cost := estimate_cost provider model input_tokens output_tokens
  let model_supported := is_model_supported provider model
  { input_tokens := input_tokens
    output_tokens := output_tokens
    total_tokens := input_tokens + output_tokens
    estimated_cost := estimated_cost
    provider := provider
    model := model
    model_supported := model_supported
    cost_accuracy :=
      if model_supported = true ∨ 0 < estimated_cost then "accurate"
      else "estimated" }

/-- One row of the `memory_vectors` table (a stored conversational turn).
The embedding vector plays no role in the pruning logic and is omitted;
`createdAt` is the record's timestamp (the table's `created_at` column). -/
structure MemoryRecord where
  userId : String
  conversationId : String
  role : String
  content : String
  createdAt : Nat
deriving Repr, DecidableEq

/-- One row of the `summaries` table. -/
structure ConversationSummary where
  userId : String
  conversationId : String
  summary : String
  messagesCount : Nat
deriving Repr, DecidableEq

/-- The persistence backend's state: the two tables the pruning logic touches. -/
structure Store where
  records : List MemoryRecord
  summaries : List ConversationSummary
deriving Repr, DecidableEq

/-- The `memory_vectors` rows of one `(user_id, conversation_id)` scope, in
stored order. -/
def convRecords (st : Store) (uid cid : String) : List MemoryRecord :=
  st.records.filter (fun r => r.userId == uid && r.conversationId == cid)

/-- Ordering used by the store's `order("created_at", desc=False)` clause. -/
def byCreatedAt (a b : MemoryRecord) : Prop :=
  a.createdAt ≤ b.createdAt

instance : DecidableRel byCreatedAt :=
  fun a b => inferInstanceAs (Decidable (a.createdAt ≤ b.createdAt))

/-- Embedding of `MemoryManager.get_conversation_messages`: the conversation's
rows ordered by `created_at` ascending, capped at `limit`. -/
def get_conversation_messages (st : Store) (uid cid : String) (limit : Nat) :
    List MemoryRecord :=
  ((convRecords st uid cid).insertionSort byCreatedAt).take limit

/-- Embedding of `MemoryManager.summarize_conversation`: insert one row into
`summaries` and report success. `insertOk` models the external insert call:
`false` covers both a raised exception (caught by the source's `except`,
returning `False`) and an empty `result.data`; in either case no row is
stored. -/
def summarize_conversation (st : Store) (uid cid summaryText : String)
    (messageCount : Nat) (insertOk : Bool) : Bool × Store :=
  if insertOk then
    (true, { st with summaries :=
      st.summaries ++ [⟨uid, cid, summaryText, messageCount⟩] })
  else (false, st)

/-- The range delete issued by `summarize_and_prune`: delete every
`memory_vectors` row of the scope with `created_at <= ts`. -/
def deleteLte (st : Store) (uid cid : String) (ts : Nat) : Store :=
  { st with records := (st.records.filter
      (fun r => !(r.userId == uid && r.conversationId == cid &&
                  r.createdAt ≤ ts))) }

/-- Embedding of `MemoryManager.summarize_and_prune`. `chatResult` models the
external `llm_bridge.chat`/`extract_content` pair: `some s` is a successful
completion with extracted text `s`, `none` a raised exception, caught by the
source's outer `except` (which then returns `False` having written and deleted
nothing, since the delete only happens after the chat call). The `Bool` result
of `summarize_conversation` is ignored, exactly as in the source. -/
def summarize_and_prune (st : Store) (uid cid : String)
    (chatResult : Option String) (insertOk : Bool) : Bool × Store :=
  let messages := get_conversation_messages st uid cid 100
  if messages.length < 20 then (false, st)
  else
    let messagesToSummarize := messages.take (messages.length - 10)
    match chatResult with
    | none => (false, st)
    | some summaryText =>
      let st1 := (summarize_conversation st uid cid summaryText
        messagesToSummarize.length insertOk).2
      match messagesToSummarize.getLast? with
      | some oldest => (true, deleteLte st1 uid cid oldest.createdAt)
      | none => (true, st1)

/-- Sample conversation data for concrete instantiations: `n` records of one
`(user, conversation)` scope with strictly increasing timestamps. -/
def sampleRecords (n : Nat) : List MemoryRecord :=
  (List.range n).map (fun i => ⟨"u", "c", "user", "msg", i⟩)

/-- A store holding exactly the `n` sample records and no summaries. -/
def sampleStore (n : Nat) : Store :=
  ⟨sampleRecords n, []⟩

/-- Helper: on the empty string the OpenAI path counts 0 tokens, whether the
tokenizer succeeds (encoding the empty string to no tokens) or raises and the
word-count fallback runs. -/
theorem count_openai_tokens_empty (tik : String → String → Option Nat)
    (htik : ∀ enc, tik enc "" = none ∨ tik enc "" = some 0)
    (model : String) : _count_openai_tokens tik model "" = 0 := by
  unfold _count_openai_tokens
  rcases htik (openaiEncodingName model) with h | h <;> (rw [h]; try rfl)

/-- Claim C2, counterexample: for the Anthropic provider the empty string
counts as 1 token, not 0 (`max(1, int(0 / 3.8)) = 1` in the source), so
`count_tokens(provider, model, "") == 0` fails for provider `"Anthropic"`. -/
theorem C2_counterexample_anthropic_empty :
    count_tokens (fun _ _ => none) "Anthropic" "claude-3-haiku-20240307" "" ≠ 0 := by
  decide

/-- Claim C2, amended: for every provider, model and text the token count is a
non-negative integer; on the empty string it is 0 for the OpenAI path (whose
tokenizer encodes the empty string to no tokens, or raises and falls back to
the word heuristic) and for unknown providers, while the Anthropic and Gemini
character heuristics floor at 1. -/
theorem C2_count_tokens_amended (tik : String → String → Option Nat)
    (htik : ∀ enc, tik enc "" = none ∨ tik enc "" = some 0)
    (provider model text : String) :
    0 ≤ count_tokens tik provider model text ∧
    count_tokens tik provider model "" =
      (if provider = "Anthropic" ∨ provider = "Gemini" then 1 else 0) := by
  refine ⟨Nat.zero_le _, ?_⟩
  by_cases h1 : provider = "OpenAI"
  · subst h1
    rw [if_neg (by decide)]
    unfold count_tokens
    rw [if_pos rfl]
    exact count_openai_tokens_empty tik htik model
  · by_cases h2 : provider = "Anthropic"
    · subst h2; rfl
    · by_cases h3 : provider = "Gemini"
      · subst h3; rfl
      · rw [if_neg (by simp [h2, h3])]
        unfold count_tokens
        rw [if_neg h1, if_neg h2, if_neg h3]
        rfl

/-- Witness for `C2_count_tokens_amended`: tokenizer returning 0 everywhere,
provider OpenAI, model gpt-4. -/
theorem C2_count_tokens_amended_witness :
    0 ≤ count_tokens (fun _ _ => some 0) "OpenAI" "gpt-4" "hi" ∧
    count_tokens (fun _ _ => some 0) "OpenAI" "gpt-4" "" =
      (if ("OpenAI" = "Anthropic" ∨ "OpenAI" = "Gemini") then 1 else 0) :=
  C2_count_tokens_amended (fun _ _ => some 0) (fun _ => Or.inr rfl) "OpenAI" "gpt-4" "hi"

/-- Helper: the fold of `count_messages_tokens` from any accumulator equals
the accumulator plus the per-content sum plus 4 per message. -/
theorem count_messages_tokens_foldl (tik : String → String → Option Nat)
    (provider model : String) :
    ∀ (l : List Message) (acc : Nat),
      l.foldl (fun acc msg =>
        acc + count_tokens tik provider model msg.content + 4) acc =
      acc + (l.map (fun msg => count_tokens tik provider model msg.content)).sum
        + 4 * l.length
  | [], acc => by simp
  | msg :: l, acc => by
    rw [List.foldl_cons, count_messages_tokens_foldl tik provider model l]
    simp [List.sum_cons]
    ring

/-- Claim C3: `count_messages_tokens` equals the sum of per-content token
counts plus 4 tokens per message plus a 3-token conversation overhead; being a
pure Lean function of its arguments it is deterministic by construction. -/
theorem C3_messages_tokens_sum (tik : String → String → Option Nat)
    (provider model : String) (messages : List Message) :
    count_messages_tokens tik provider model messages =
      (messages.map (fun msg => count_tokens tik provider model msg.content)).sum
        + 4 * messages.length + 3 := by
  unfold count_messages_tokens
  rw [count_messages_tokens_foldl]
  simp

/-- Helper: a successful `dictGet` returns the value of some stored pair. -/
theorem dictGet_mem {α : Type} {d : List (String × α)} {k : String} {v : α}
    (h : dictGet d k = some v) : ∃ key, (key, v) ∈ d := by
  unfold dictGet at h
  cases hf : d.find? (fun kv => kv.1 == k) with
  | none => rw [hf] at h; simp at h
  | some kv =>
    rw [hf] at h
    simp only [Option.map_some'] at h
    obtain rfl : kv.2 = v := by injection h
    exact ⟨kv.1, by simpa using List.mem_of_find?_eq_some hf⟩

/-- Helper: every pricing entry the fuzzy fallback can return comes from the
provider's pricing block. -/
theorem fuzzyPricing_from_table {provider ml : String}
    {pp : List (String × ℚ × ℚ)} {pr : ℚ × ℚ}
    (h : fuzzyPricing provider ml pp = some pr) :
    ∃ k, dictGet pp k = some pr := by
  unfold fuzzyPricing at h
  split_ifs at h <;> exact ⟨_, h⟩

/-- Helper: the three pricing blocks carry only non-negative rates, so any
entry looked up in one of them has non-negative input and output rates. -/
theorem tableGet_nonneg {pp : List (String × ℚ × ℚ)}
    (hpp : pp = openaiPricing ∨ pp = anthropicPricing ∨ pp = geminiPricing)
    {k : String} {pr : ℚ × ℚ} (h : dictGet pp k = some pr) :
    0 ≤ pr.1 ∧ 0 ≤ pr.2 := by
  obtain ⟨key, hmem⟩ := dictGet_mem h
  have hall : ∀ e ∈ pp, 0 ≤ e.2.1 ∧ 0 ≤ e.2.2 := by
    rcases hpp with h1 | h1 | h1 <;> subst h1 <;> intro e he <;>
      simp only [openaiPricing, anthropicPricing, geminiPricing,
        List.mem_cons, List.not_mem_nil, or_false] at he
    · rcases he with rfl | rfl | rfl | rfl | rfl | rfl | rfl | rfl | rfl | rfl <;>
        exact ⟨by norm_num, by norm_num⟩
    · rcases he with rfl | rfl | rfl | rfl | rfl | rfl | rfl | rfl <;>
        exact ⟨by norm_num, by norm_num⟩
    · rcases he with rfl | rfl | rfl | rfl | rfl | rfl | rfl <;>
        exact ⟨by norm_num, by norm_num⟩
  exact hall (key, pr) hmem

/-- Helper: any pricing pair `resolvePricing` produces has non-negative input
and output rates. -/
theorem resolvePricing_nonneg {provider model : String} {pr : ℚ × ℚ}
    (h : resolvePricing provider model = some pr) : 0 ≤ pr.1 ∧ 0 ≤ pr.2 := by
  unfold resolvePricing at h
  cases hpv : dictGet pricing provider with
  | none =>
    rw [hpv] at h
    simp only [Option.getD_none] at h
    cases hm : dictGet ([] : List (String × ℚ × ℚ)) model with
    | some p => simp [dictGet] at hm
    | none =>
      rw [hm] at h
      obtain ⟨k, hk⟩ := fuzzyPricing_from_table h
      simp [dictGet] at hk
  | some pp =>
    rw [hpv] at h
    simp only [Option.getD_some] at h
    have htab : pp = openaiPricing ∨ pp = anthropicPricing ∨ pp = geminiPricing := by
      obtain ⟨key, hmem⟩ := dictGet_mem hpv
      simp only [pricing, List.mem_cons, List.not_mem_nil, or_false,
        Prod.mk.injEq] at hmem
      rcases hmem with ⟨_, h2⟩ | ⟨_, h2⟩ | ⟨_, h2⟩
      · exact Or.inl h2
      · exact Or.inr (Or.inl h2)
      · exact Or.inr (Or.inr h2)
    cases hm : dictGet pp model with
    | some p =>
      rw [hm] at h
      obtain rfl : p = pr := by injection h
      exact tableGet_nonneg htab hm
    | none =>
      rw [hm] at h
      obtain ⟨k, hk⟩ := fuzzyPricing_from_table h
      exact tableGet_nonneg htab hk

/-- Claim C7: when neither the exact lookup nor the fuzzy family rules resolve
a pricing entry, `estimate_cost` is exactly 0 for all token counts and
`is_model_supported` reports `false`; the embedded function is total, so no
exception can reach the caller. -/
theorem C7_unknown_pricing_zero (provider model : String)
    (hnone : resolvePricing provider model = none)
    (input_tokens output_tokens : Nat) :
    estimate_cost provider model input_tokens output_tokens = 0 ∧
    is_model_supported provider model = false := by
  constructor
  · unfold estimate_cost
    rw [hnone]
  · unfold is_model_supported
    cases hpv : dictGet pricing provider with
    | none => rfl
    | some pp =>
      unfold resolvePricing at hnone
      rw [hpv] at hnone
      simp only [Option.getD_some] at hnone
      cases hm : dictGet pp model with
      | none => simp [hm]
      | some p => rw [hm] at hnone; simp at hnone

/-- Witness for `C7_unknown_pricing_zero` at the spec's scenario-4 input. -/
theorem C7_unknown_pricing_zero_witness :
    resolvePricing "OpenAI" "unknown-model-xyz" = none ∧
    (estimate_cost "OpenAI" "unknown-model-xyz" 1000 1000 = 0 ∧
     is_model_supported "OpenAI" "unknown-model-xyz" = false) :=
  ⟨by decide,
   C7_unknown_pricing_zero "OpenAI" "unknown-model-xyz" (by decide) 1000 1000⟩

/-- Claim C8: with both token arguments moving upward (in particular with
either one fixed), the estimated cost never decreases, for every provider and
model string. -/
theorem C8_estimate_cost_monotone (provider model : String)
    (i1 i2 o1 o2 : Nat) (hi : i1 ≤ i2) (ho : o1 ≤ o2) :
    estimate_cost provider model i1 o1 ≤ estimate_cost provider model i2 o2 := by
  unfold estimate_cost
  cases hres : resolvePricing provider model with
  | none => exact le_refl 0
  | some pr =>
    obtain ⟨h1, h2⟩ := resolvePricing_nonneg hres
    show ((i1 : ℚ) / 1000) * pr.1 + ((o1 : ℚ) / 1000) * pr.2 ≤
         ((i2 : ℚ) / 1000) * pr.1 + ((o2 : ℚ) / 1000) * pr.2
    gcongr

/-- Witness for `C8_estimate_cost_monotone` on gpt-4 with growing counts. -/
theorem C8_estimate_cost_monotone_witness :
    (1 : Nat) ≤ 2 ∧
    estimate_cost "OpenAI" "gpt-4" 1 1 ≤ estimate_cost "OpenAI" "gpt-4" 2 2 :=
  ⟨by decide, C8_estimate_cost_monotone "OpenAI" "gpt-4" 1 2 1 2 (by decide) (by decide)⟩

/-- Helper: the accuracy flag literal equals "accurate" exactly when the guard
of its conditional holds. -/
theorem accuracy_if_iff (b : Bool) (q : ℚ) :
    ((if b = true ∨ 0 < q then "accurate" else "estimated") = "accurate") ↔
      (b = true ∨ 0 < q) := by
  split_ifs with h
  · exact iff_of_true rfl h
  · exact iff_of_false (by decide) h

/-- Claim C10: `get_token_info` flags the cost "accurate" exactly when the
model is exactly supported or the estimated cost is strictly positive (and
"estimated" otherwise); consequently a fuzzy-matched unsupported model with a
positive cost is flagged "accurate", shown concretely for the unsupported
Anthropic model `claude-3-opus-latest`. -/
theorem C10_cost_accuracy (tik : String → String → Option Nat)
    (provider model : String) (messages : List Message)
    (response_text : String) :
    ((get_token_info tik provider model messages response_text).cost_accuracy
        = "accurate" ↔
      (is_model_supported provider model = true ∨
       0 < (get_token_info tik provider model messages
              response_text).estimated_cost)) ∧
    ((get_token_info (fun _ _ => none) "Anthropic" "claude-3-opus-latest"
        [] "x").cost_accuracy = "accurate" ∧
     is_model_supported "Anthropic" "claude-3-opus-latest" = false) := by
  constructor
  · exact accuracy_if_iff (is_model_supported provider model)
      ((get_token_info tik provider model messages response_text).estimated_cost)
  · have hq : (0 : ℚ) < (get_token_info (fun _ _ => none) "Anthropic"
        "claude-3-opus-latest" [] "x").estimated_cost := by
      show (0 : ℚ) < ((3 : ℕ) : ℚ) / 1000 * 0.015 + ((1 : ℕ) : ℚ) / 1000 * 0.075
      norm_num
    refine ⟨?_, rfl⟩
    exact (accuracy_if_iff
      (is_model_supported "Anthropic" "claude-3-opus-latest")
      ((get_token_info (fun _ _ => none) "Anthropic" "claude-3-opus-latest"
        [] "x").estimated_cost)).mpr (Or.inr hq)

/-- Claim C1, counterexample: on a 20-record conversation where the
summarization call succeeds but persisting the summary fails, the source
ignores the `False` returned by `summarize_conversation`, still deletes the
10 oldest records and returns `True` — not the claimed
failure-with-no-deletion. -/
theorem C1_counterexample_persist_failure :
    (summarize_and_prune (sampleStore 20) "u" "c" (some "s") false).1 = true ∧
    (summarize_and_prune (sampleStore 20) "u" "c" (some "s") false).2.summaries = [] ∧
    (summarize_and_prune (sampleStore 20) "u" "c" (some "s") false).2.records.length = 10 ∧
    (sampleStore 20).records.length = 20 := by
  refine ⟨rfl, rfl, rfl, rfl⟩

/-- Helper: evaluation of `summarize_and_prune` past the threshold check when
the summary insert fails: the store passed to the delete step is unchanged. -/
theorem summarize_and_prune_insert_failed (st : Store) (uid cid s : String)
    (hlen : ¬ (get_conversation_messages st uid cid 100).length < 20) :
    summarize_and_prune st uid cid (some s) false =
      match ((get_conversation_messages st uid cid 100).take
          ((get_conversation_messages st uid cid 100).length - 10)).getLast? with
      | some oldest => (true, deleteLte st uid cid oldest.createdAt)
      | none => (true, st) := by
  unfold summarize_and_prune
  rw [if_neg hlen]
  rfl

/-- Claim C1, amended: a summarization-call failure aborts with `False` and no
store change, but a summary-persistence failure is not detected — the
operation still returns `True` while no summary is stored (and, as
`C1_counterexample_persist_failure` shows, the old records are deleted
anyway). -/
theorem C1_failure_semantics (st : Store) (uid cid : String) (ins : Bool)
    (s : String)
    (hlen : 20 ≤ (get_conversation_messages st uid cid 100).length) :
    summarize_and_prune st uid cid none ins = (false, st) ∧
    (summarize_and_prune st uid cid (some s) false).1 = true ∧
    (summarize_and_prune st uid cid (some s) false).2.summaries = st.summaries := by
  have hnotlt : ¬ (get_conversation_messages st uid cid 100).length < 20 :=
    not_lt.mpr hlen
  have he := summarize_and_prune_insert_failed st uid cid s hnotlt
  refine ⟨?_, ?_, ?_⟩
  · simp only [summarize_and_prune]
    split_ifs <;> rfl
  · rw [he]
    cases ((get_conversation_messages st uid cid 100).take
        ((get_conversation_messages st uid cid 100).length - 10)).getLast? <;> rfl
  · rw [he]
    cases ((get_conversation_messages st uid cid 100).take
        ((get_conversation_messages st uid cid 100).length - 10)).getLast? <;> rfl

/-- Witness for `C1_failure_semantics` on a concrete 20-record store. -/
theorem C1_failure_semantics_witness :
    20 ≤ (get_conversation_messages (sampleStore 20) "u" "c" 100).length ∧
    summarize_and_prune (sampleStore 20) "u" "c" none true = (false, sampleStore 20) :=
  ⟨by decide, (C1_failure_semantics (sampleStore 20) "u" "c" true "s" (by decide)).1⟩

/-- Claim C6: when the conversation holds fewer than 20 records the pruning
check returns `False` and leaves the store untouched — no summary row is
written and no record is deleted. -/
theorem C6_below_threshold_no_op (st : Store) (uid cid : String)
    (chatResult : Option String) (insertOk : Bool)
    (hcount : (convRecords st uid cid).length < 20) :
    summarize_and_prune st uid cid chatResult insertOk = (false, st) := by
  have hlen : (get_conversation_messages st uid cid 100).length < 20 := by
    unfold get_conversation_messages
    rw [List.length_take, List.length_insertionSort]
    exact lt_of_le_of_lt (min_le_right _ _) hcount
  unfold summarize_and_prune
  rw [if_pos hlen]

/-- Witness for `C6_below_threshold_no_op` on a concrete 19-record store. -/
theorem C6_below_threshold_no_op_witness :
    (convRecords (sampleStore 19) "u" "c").length < 20 ∧
    summarize_and_prune (sampleStore 19) "u" "c" (some "s") true
      = (false, sampleStore 19) :=
  ⟨by decide,
   C6_below_threshold_no_op (sampleStore 19) "u" "c" (some "s") true (by decide)⟩

/-- Helper: below the 20-message threshold the pruning pass is a no-op. -/
theorem summarize_and_prune_below_threshold (st : Store) (uid cid : String)
    (chat : Option String) (ins : Bool)
    (hlen : (get_conversation_messages st uid cid 100).length < 20) :
    summarize_and_prune st uid cid chat ins = (false, st) := by
  simp only [summarize_and_prune]
  rw [if_pos hlen]

/-- Helper: a raised summarization call aborts the pass with no store change. -/
theorem summarize_and_prune_chat_failed (st : Store) (uid cid : String)
    (ins : Bool) :
    summarize_and_prune st uid cid none ins = (false, st) := by
  simp only [summarize_and_prune]
  split_ifs <;> rfl

/-- Helper: evaluation of the successful path, when the slice to summarize is
non-empty: the summary step runs, then the range delete up to the slice's last
timestamp. -/
theorem summarize_and_prune_success (st : Store) (uid cid s : String)
    (ins : Bool)
    (hlen : ¬ (get_conversation_messages st uid cid 100).length < 20)
    (oldest : MemoryRecord)
    (hgl : ((get_conversation_messages st uid cid 100).take
        ((get_conversation_messages st uid cid 100).length - 10)).getLast?
      = some oldest) :
    summarize_and_prune st uid cid (some s) ins =
      (true, deleteLte (summarize_conversation st uid cid s
          ((get_conversation_messages st uid cid 100).take
            ((get_conversation_messages st uid cid 100).length - 10)).length ins).2
        uid cid oldest.createdAt) := by
  simp only [summarize_and_prune]
  rw [if_neg hlen, hgl]

/-- Helper: evaluation of the successful path when the slice to summarize is
empty (no record is deleted, mirroring the source's length guard). -/
theorem summarize_and_prune_nodelete (st : Store) (uid cid s : String)
    (ins : Bool)
    (hlen : ¬ (get_conversation_messages st uid cid 100).length < 20)
    (hgl : ((get_conversation_messages st uid cid 100).take
        ((get_conversation_messages st uid cid 100).length - 10)).getLast? = none) :
    summarize_and_prune st uid cid (some s) ins =
      (true, (summarize_conversation st uid cid s
          ((get_conversation_messages st uid cid 100).take
            ((get_conversation_messages st uid cid 100).length - 10)).length ins).2) := by
  simp only [summarize_and_prune]
  rw [if_neg hlen, hgl]

/-- Helper: storing a summary never touches the `memory_vectors` rows. -/
theorem summarize_conversation_records (st : Store) (uid cid s : String)
    (n : Nat) (ins : Bool) :
    (summarize_conversation st uid cid s n ins).2.records = st.records := by
  unfold summarize_conversation
  split_ifs <;> rfl

/-- Helper: stores with the same rows have the same conversation slices. -/
theorem convRecords_records_eq {st st' : Store} (uid cid : String)
    (h : st'.records = st.records) :
    convRecords st' uid cid = convRecords st uid cid := by
  unfold convRecords; rw [h]

/-- Helper: after the range delete, the conversation's rows are exactly those
with `created_at` above the threshold. -/
theorem convRecords_deleteLte (st' st : Store) (uid cid : String) (T : Nat)
    (hrec : st'.records = st.records) :
    convRecords (deleteLte st' uid cid T) uid cid =
      (convRecords st uid cid).filter (fun r => !decide (r.createdAt ≤ T)) := by
  unfold convRecords deleteLte
  simp only [hrec, List.filter_filter]
  congr 1
  funext r
  cases h1 : (r.userId == uid) <;> cases h2 : (r.conversationId == cid) <;>
    cases h3 : decide (r.createdAt ≤ T) <;> simp [h1, h2, h3]

/-- Claim C9: assuming strictly increasing `created_at` within the
conversation, every record deleted by a successful pruning pass is strictly
older than every record of the conversation that remains — only a contiguous
oldest prefix is ever removed. (The proof needs no more than the threshold
comparison: deleted means `created_at ≤` cutoff, retained means above it.) -/
theorem C9_prefix_deletion (st : Store) (uid cid : String)
    (chatResult : Option String) (insertOk : Bool)
    (hsorted : (convRecords st uid cid).Pairwise
      (fun a b => a.createdAt < b.createdAt))
    (hsucc : (summarize_and_prune st uid cid chatResult insertOk).1 = true)
    (d k : MemoryRecord)
    (hd1 : d ∈ convRecords st uid cid)
    (hd2 : d ∉ convRecords (summarize_and_prune st uid cid chatResult insertOk).2 uid cid)
    (hk : k ∈ convRecords (summarize_and_prune st uid cid chatResult insertOk).2 uid cid) :
    d.createdAt < k.createdAt := by
  by_cases hlen : (get_conversation_messages st uid cid 100).length < 20
  · rw [summarize_and_prune_below_threshold st uid cid chatResult insertOk hlen] at hsucc
    exact Bool.noConfusion hsucc
  · cases chatResult with
    | none =>
      rw [summarize_and_prune_chat_failed st uid cid insertOk] at hsucc
      exact Bool.noConfusion hsucc
    | some s =>
      cases hgl : ((get_conversation_messages st uid cid 100).take
          ((get_conversation_messages st uid cid 100).length - 10)).getLast? with
      | none =>
        rw [summarize_and_prune_nodelete st uid cid s insertOk hlen hgl] at hd2
        rw [convRecords_records_eq uid cid
          (summarize_conversation_records st uid cid s _ insertOk)] at hd2
        exact absurd hd1 hd2
      | some oldest =>
        rw [summarize_and_prune_success st uid cid s insertOk hlen oldest hgl] at hd2 hk
        rw [convRecords_deleteLte _ st uid cid oldest.createdAt
          (summarize_conversation_records st uid cid s _ insertOk)] at hd2 hk
        have hdle : d.createdAt ≤ oldest.createdAt := by
          by_contra hlt
          exact hd2 (List.mem_filter.mpr ⟨hd1, by simpa using hlt⟩)
        have hkgt : oldest.createdAt < k.createdAt := by
          have := (List.mem_filter.mp hk).2
          simpa using this
        exact lt_of_le_of_lt hdle hkgt

/-- Witness for `C9_prefix_deletion`: on the 25-record sample store the
record with timestamp 0 is deleted while timestamp 20 survives. -/
theorem C9_prefix_deletion_witness :
    ((⟨"u", "c", "user", "msg", 0⟩ : MemoryRecord) ∈ convRecords (sampleStore 25) "u" "c") ∧
    (⟨"u", "c", "user", "msg", 0⟩ : MemoryRecord).createdAt <
      (⟨"u", "c", "user", "msg", 20⟩ : MemoryRecord).createdAt :=
  ⟨by decide,
   C9_prefix_deletion (sampleStore 25) "u" "c" (some "s") true (by decide)
     (by decide) ⟨"u", "c", "user", "msg", 0⟩ ⟨"u", "c", "user", "msg", 20⟩
     (by decide) (by decide) (by decide)⟩

/-- Helper: on a conversation whose stored rows are already in strictly
increasing `created_at` order, the fetch is just the first `limit` rows. -/
theorem get_conversation_messages_sorted (st : Store) (uid cid : String)
    (hsorted : (convRecords st uid cid).Pairwise
      (fun a b => a.createdAt < b.createdAt)) (limit : Nat) :
    get_conversation_messages st uid cid limit
      = (convRecords st uid cid).take limit := by
  have hs : List.Sorted byCreatedAt (convRecords st uid cid) :=
    List.Pairwise.imp (fun h => le_of_lt h) hsorted
  unfold get_conversation_messages
  rw [List.Sorted.insertionSort_eq hs]

/-- Helper: in a strictly sorted list every element's timestamp is at most the
last element's. -/
theorem le_getLast_of_sorted {L : List MemoryRecord}
    (hs : L.Pairwise (fun a b => a.createdAt < b.createdAt))
    {x : MemoryRecord} (hx : L.getLast? = some x) :
    ∀ a ∈ L, a.createdAt ≤ x.createdAt := by
  obtain ⟨hne, hxeq⟩ := List.mem_getLast?_eq_getLast
    (show x ∈ L.getLast? from by rw [hx]; rfl)
  intro a ha
  rw [← List.dropLast_concat_getLast hne] at hs ha
  rcases List.mem_append.mp ha with h1 | h1
  · have := (List.pairwise_append.mp hs).2.2 a h1 (L.getLast hne) (by simp)
    rw [hxeq]
    exact le_of_lt this
  · rw [hxeq]
    have : a = L.getLast hne := by simpa using h1
    rw [this]

/-- Helper: splitting a strictly sorted list after its `K`-prefix, the last
element of the prefix bounds the prefix from above and the remainder strictly
from below. -/
theorem sorted_split_bounds (L : List MemoryRecord) (K : Nat)
    (hs : L.Pairwise (fun a b => a.createdAt < b.createdAt))
    (oldest : MemoryRecord) (hgl : (L.take K).getLast? = some oldest) :
    (∀ a ∈ L.take K, a.createdAt ≤ oldest.createdAt) ∧
    (∀ b ∈ L.drop K, oldest.createdAt < b.createdAt) := by
  have hsA : (L.take K).Pairwise (fun a b => a.createdAt < b.createdAt) :=
    hs.sublist (List.take_sublist K L)
  refine ⟨le_getLast_of_sorted hsA hgl, ?_⟩
  intro b hb
  have hmem : oldest ∈ L.take K :=
    List.mem_of_mem_getLast?
      (show oldest ∈ (L.take K).getLast? from by rw [hgl]; rfl)
  have hAB := (List.pairwise_append.mp
    (show (L.take K ++ L.drop K).Pairwise
        (fun a b => a.createdAt < b.createdAt) from by
      rw [List.take_append_drop]; exact hs)).2.2
  exact hAB oldest hmem b hb

/-- Claim C4: under the data model's strictly increasing `created_at`
invariant, any record with fewer than 10 strictly newer records in its
conversation — i.e. any of the 10 most recent — survives every pruning pass,
whatever the outcome of the summarization call and the summary insert. -/
theorem C4_keeps_recent (st : Store) (uid cid : String)
    (chatResult : Option String) (insertOk : Bool)
    (hsorted : (convRecords st uid cid).Pairwise
      (fun a b => a.createdAt < b.createdAt))
    (r : MemoryRecord) (hr : r ∈ convRecords st uid cid)
    (hrecent : ((convRecords st uid cid).filter
        (fun x => decide (r.createdAt < x.createdAt))).length < 10) :
    r ∈ convRecords (summarize_and_prune st uid cid chatResult insertOk).2 uid cid := by
  by_cases hlen : (get_conversation_messages st uid cid 100).length < 20
  · rw [summarize_and_prune_below_threshold st uid cid chatResult insertOk hlen]
    exact hr
  · cases chatResult with
    | none =>
      rw [summarize_and_prune_chat_failed st uid cid insertOk]
      exact hr
    | some s =>
      cases hgl : ((get_conversation_messages st uid cid 100).take
          ((get_conversation_messages st uid cid 100).length - 10)).getLast? with
      | none =>
        rw [summarize_and_prune_nodelete st uid cid s insertOk hlen hgl]
        rw [convRecords_records_eq uid cid
          (summarize_conversation_records st uid cid s _ insertOk)]
        exact hr
      | some oldest =>
        rw [summarize_and_prune_success st uid cid s insertOk hlen oldest hgl]
        rw [convRecords_deleteLte _ st uid cid oldest.createdAt
          (summarize_conversation_records st uid cid s _ insertOk)]
        apply List.mem_filter.mpr
        refine ⟨hr, ?_⟩
        set L := convRecords st uid cid with hL
        have hmsgs : get_conversation_messages st uid cid 100 = L.take 100 :=
          get_conversation_messages_sorted st uid cid hsorted 100
        rw [hmsgs] at hlen hgl
        set n := (L.take 100).length with hn
        have h100 : n ≤ 100 := by
          rw [hn, List.length_take]
          exact Nat.min_le_left _ _
        have htt : (L.take 100).take (n - 10) = L.take (n - 10) := by
          rw [List.take_take]
          congr 1
          exact Nat.min_eq_left (by omega)
        rw [htt] at hgl
        obtain ⟨hA, hB⟩ := sorted_split_bounds L (n - 10) hsorted oldest hgl
        simp only [Bool.not_eq_true', decide_eq_false_iff_not, not_le]
        by_contra hcon
        push_neg at hcon
        have hdropsub : ∀ b ∈ L.drop (n - 10),
            decide (r.createdAt < b.createdAt) = true := by
          intro b hb
          simpa using lt_of_le_of_lt hcon (hB b hb)
        have hfil : L.filter (fun x => decide (r.createdAt < x.createdAt)) =
            (L.take (n - 10)).filter (fun x => decide (r.createdAt < x.createdAt))
              ++ L.drop (n - 10) := by
          conv_lhs => rw [← List.take_append_drop (n - 10) L]
          rw [List.filter_append, List.filter_eq_self.mpr hdropsub]
        have hlen10 : 10 ≤ (L.filter
            (fun x => decide (r.createdAt < x.createdAt))).length := by
          rw [hfil, List.length_append, List.length_drop]
          have h1 : 20 ≤ n := by omega
          have h2 : n ≤ L.length := by
            rw [hn, List.length_take]
            exact Nat.min_le_right _ _
          omega
        omega

/-- Witness for `C4_keeps_recent`: the newest record of the 25-record sample
store survives the pruning pass. -/
theorem C4_keeps_recent_witness :
    ((convRecords (sampleStore 25) "u" "c").filter
      (fun x => decide ((⟨"u", "c", "user", "msg", 24⟩ : MemoryRecord).createdAt
        < x.createdAt))).length < 10 ∧
    (⟨"u", "c", "user", "msg", 24⟩ : MemoryRecord) ∈
      convRecords (summarize_and_prune (sampleStore 25) "u" "c" (some "s") true).2 "u" "c" :=
  ⟨by decide,
   C4_keeps_recent (sampleStore 25) "u" "c" (some "s") true (by decide)
     ⟨"u", "c", "user", "msg", 24⟩ (by decide) (by decide)⟩

/-- Helper: in a strictly sorted list, filtering out everything at or below
the last timestamp of the `K`-prefix leaves exactly the remainder. -/
theorem filter_gt_getLast_sorted (L : List MemoryRecord) (K : Nat)
    (hs : L.Pairwise (fun a b => a.createdAt < b.createdAt))
    (oldest : MemoryRecord) (hgl : (L.take K).getLast? = some oldest) :
    L.filter (fun x => !decide (x.createdAt ≤ oldest.createdAt)) = L.drop K := by
  obtain ⟨hA, hB⟩ := sorted_split_bounds L K hs oldest hgl
  have h1 : (L.take K).filter
      (fun x => !decide (x.createdAt ≤ oldest.createdAt)) = [] := by
    rw [List.filter_eq_nil_iff]
    intro a ha
    simp [hA a ha]
  have h2 : (L.drop K).filter
      (fun x => !decide (x.createdAt ≤ oldest.createdAt)) = L.drop K := by
    rw [List.filter_eq_self]
    intro b hb
    simp [not_le.mpr (hB b hb)]
  conv_lhs => rw [← List.take_append_drop K L]
  rw [List.filter_append, h1, h2, List.nil_append]

/-- Claim C5: on a 25-record conversation with strictly increasing timestamps
and a successful summarization and insert, exactly one summary row with
`messages_count = 15` is appended, and the conversation's remaining rows are
exactly the 10 most recent (the sorted list's last 10). -/
theorem C5_25_records (st : Store) (uid cid s : String)
    (hsorted : (convRecords st uid cid).Pairwise
      (fun a b => a.createdAt < b.createdAt))
    (hlen25 : (convRecords st uid cid).length = 25) :
    (summarize_and_prune st uid cid (some s) true).1 = true ∧
    (summarize_and_prune st uid cid (some s) true).2.summaries
      = st.summaries ++ [⟨uid, cid, s, 15⟩] ∧
    convRecords (summarize_and_prune st uid cid (some s) true).2 uid cid
      = (convRecords st uid cid).drop 15 ∧
    (convRecords (summarize_and_prune st uid cid (some s) true).2 uid cid).length
      = 10 := by
  set L := convRecords st uid cid with hL
  have hmsgs : get_conversation_messages st uid cid 100 = L.take 100 :=
    get_conversation_messages_sorted st uid cid hsorted 100
  have htakeall : L.take 100 = L := List.take_of_length_le (by omega)
  have hmlen : (get_conversation_messages st uid cid 100).length = 25 := by
    rw [hmsgs, htakeall, hlen25]
  have hlen : ¬ (get_conversation_messages st uid cid 100).length < 20 := by omega
  have hslice : (get_conversation_messages st uid cid 100).take
      ((get_conversation_messages st uid cid 100).length - 10) = L.take 15 := by
    rw [hmlen, hmsgs, htakeall]
  have hnonempty : L.take 15 ≠ [] := by
    intro hcon
    have hlc := congrArg List.length hcon
    rw [List.length_take, hlen25] at hlc
    simp at hlc
  obtain ⟨oldest, hgl0⟩ : ∃ x, (L.take 15).getLast? = some x := by
    cases hq : (L.take 15).getLast? with
    | none => exact absurd (List.getLast?_eq_none_iff.mp hq) hnonempty
    | some x => exact ⟨x, rfl⟩
  have hgl : ((get_conversation_messages st uid cid 100).take
      ((get_conversation_messages st uid cid 100).length - 10)).getLast?
      = some oldest := by
    rw [hslice]; exact hgl0
  have hslicelen : ((get_conversation_messages st uid cid 100).take
      ((get_conversation_messages st uid cid 100).length - 10)).length = 15 := by
    rw [hslice, List.length_take, hlen25]
    omega
  have heval := summarize_and_prune_success st uid cid s true hlen oldest hgl
  rw [hslicelen] at heval
  have h3 : convRecords (summarize_and_prune st uid cid (some s) true).2 uid cid
      = L.drop 15 := by
    rw [heval]
    rw [convRecords_deleteLte _ st uid cid oldest.createdAt
      (summarize_conversation_records st uid cid s 15 true)]
    exact filter_gt_getLast_sorted L 15 hsorted oldest hgl0
  refine ⟨by rw [heval], by rw [heval]; rfl, h3, ?_⟩
  rw [h3, List.length_drop, hlen25]

/-- Witness for `C5_25_records` on the concrete 25-record sample store. -/
theorem C5_25_records_witness :
    (convRecords (sampleStore 25) "u" "c").length = 25 ∧
    (summarize_and_prune (sampleStore 25) "u" "c" (some "s") true).1 = true ∧
    (summarize_and_prune (sampleStore 25) "u" "c" (some "s") true).2.summaries
      = (sampleStore 25).summaries ++ [⟨"u", "c", "s", 15⟩] :=
  ⟨by decide,
   (C5_25_records (sampleStore 25) "u" "c" "s" (by decide) (by decide)).1,
   (C5_25_records (sampleStore 25) "u" "c" "s" (by decide) (by decide)).2.1⟩
